import Mathlib

/-!
Shallow embedding of the newscope pipeline (`src/newscope/src`): feed ingestion
retry logic, the adaptive scheduler, LLM summarization fallback, per-user
personalization, the interest-vector EMA update, the digest assembler of
`generate_press_review`, and the session streamer JIT refinement and rating
handler. Rust strings are modelled as lists of characters, `f64` score
arithmetic as real numbers where transcendental (the half-life decay) and as
rationals elsewhere, and machine integers as `Int`/`Nat`.
-/

namespace Newscope

/-- Rust string slices are modelled as lists of characters. -/
abbrev Str := List Char

/-- Model of Rust `str::trim`: drop leading and trailing whitespace. -/
def strTrim (s : Str) : Str :=
  ((s.dropWhile Char.isWhitespace).reverse.dropWhile Char.isWhitespace).reverse

/-- Model of Rust `str::find`: index of the first occurrence of `pat` in `text`
(`none` when `pat` does not occur). -/
def strFind (text pat : Str) : Option Nat :=
  (List.range (text.length + 1)).find? (fun i => pat.isPrefixOf (text.drop i))

/-- Model of Rust `str::rfind`: index of the last occurrence of `pat` in `text`. -/
def strRfind (text pat : Str) : Option Nat :=
  ((List.range (text.length + 1)).filter (fun i => pat.isPrefixOf (text.drop i))).getLast?

/-- Model of Rust slicing `text[a..b]` (for in-range indices). -/
def strSlice (s : Str) (a b : Nat) : Str := (s.drop a).take (b - a)

namespace Llm

/-- Outcome of `extract_json_from_text`: a normal return, or the panic that Rust
raises when an index-range slice is built with `start > end + 1`. -/
inductive ExtractOutcome where
  | ok (result : Option Str)
  | panicked
deriving DecidableEq

/-- Step 3 of `extract_json_from_text` (src/newscope/src/llm/mod.rs lines 79-83):
substring from the first opening brace to the last closing brace. The Rust
expression `text[start..=end]` requires `start ≤ end + 1` and panics otherwise. -/
def extractBraces (text : Str) : ExtractOutcome :=
  match strFind text ['\x7b'], strRfind text ['\x7d'] with
  | some start, some endIdx =>
    if start ≤ endIdx + 1 then .ok (some (strSlice text start (endIdx + 1)))
    else .panicked
  | _, _ => .ok none

/-- Step 2 of `extract_json_from_text` (lines 71-76): content between a pair of
triple-backtick fences; falls through to the brace step when no closing fence. -/
def extractFence (text : Str) : ExtractOutcome :=
  match strFind text "```".toList with
  | some start =>
    match strFind (text.drop (start + 3)) "```".toList with
    | some endIdx => .ok (some (strTrim ((text.drop (start + 3)).take endIdx)))
    | none => extractBraces text
  | none => extractBraces text

/-- Model of `extract_json_from_text` (src/newscope/src/llm/mod.rs lines 61-84). -/
def extract_json_from_text (text : Str) : ExtractOutcome :=
  match strFind text "```json".toList with
  | some start =>
    match strFind (text.drop (start + 7)) "```".toList with
    | some endIdx => .ok (some (strTrim ((text.drop (start + 7)).take endIdx)))
    | none => extractFence text
  | none => extractFence text

end Llm

namespace Summarizer

/-- Token usage metadata; `UsageMetadata::default()` is all zeroes. -/
structure UsageMetadata where
  prompt_tokens : Nat
  completion_tokens : Nat
  total_tokens : Nat
deriving DecidableEq, Inhabited

/-- Hierarchical summary structure (src/newscope/src/llm/mod.rs lines 36-47). -/
structure Summary where
  headline : Str
  bullets : List Str
  details : Option Str
  usage : UsageMetadata
deriving DecidableEq

/-- Model of `truncate` (src/newscope/src/llm/summarizer.rs lines 56-62). -/
def truncate (s : Str) (maxLen : Nat) : Str :=
  if s.length ≤ maxLen then s else s.take (maxLen - 3) ++ "...".toList

/-- Sentence splitting inside `extractive_summary` (summarizer.rs lines 30-34):
split on `.`, `!`, `?`, trim each piece, drop the empty ones. -/
def sentencesOf (text : Str) : List Str :=
  ((text.splitOnP (fun c => c = '.' || c = '!' || c = '?')).map strTrim).filter
    (fun s => !s.isEmpty)

/-- Model of `extractive_summary` (summarizer.rs lines 29-54). -/
def extractive_summary (text : Str) : Summary :=
  { headline := match (sentencesOf text).head? with
      | some s => truncate s 100
      | none => "No content".toList
    bullets := (((sentencesOf text).drop 1).take 5).map (fun s => truncate s 200)
    details := some (text.take 1000)
    usage := default }

/-- Model of `summarize_article` (summarizer.rs lines 7-26). The LLM call is abstracted as
an optional successful result; `none` stands for any failure of the call. -/
def summarize_article (llmResult : Option Summary) (article_text : Str) : Summary :=
  match llmResult with
  | some summary => summary
  | none => extractive_summary article_text

end Summarizer

namespace Websocket

/-- Title markers accepted by the JIT refinement parser
(src/newscope/src/sessions/websocket.rs line 294). -/
def titleMarkers : List Str :=
  ["TITLE:".toList, "TITRE:".toList, "Title:".toList, "Titre:".toList]

/-- Summary markers accepted by the JIT refinement parser (websocket.rs line 295). -/
def summaryMarkers : List Str :=
  ["SUMMARY:".toList, "RESUME:".toList, "RÉSUMÉ:".toList,
   "Summary:".toList, "Resume:".toList, "Résumé:".toList]

/-- The `find_marker` closure (websocket.rs lines 285-292): first marker of the
list that occurs in the text, with its index and length. -/
def find_marker (text : Str) (markers : List Str) : Option (Nat × Nat) :=
  markers.findSome? (fun m => (strFind text m).map (fun idx => (idx, m.length)))

/-- Stripping of trailing note chatter (websocket.rs lines 305-311): truncate at
the last `(Note:`, else `(Nota:`, else a line-break followed by `Note:`, and only
when that occurrence starts after index 10. -/
def stripTrailingNote (s : Str) : Str :=
  match strRfind s "(Note:".toList with
  | some noteIdx => if 10 < noteIdx then s.take noteIdx else s
  | none =>
    match strRfind s "(Nota:".toList with
    | some noteIdx => if 10 < noteIdx then s.take noteIdx else s
    | none =>
      match strRfind s "\nNote:".toList with
      | some noteIdx => if 10 < noteIdx then s.take noteIdx else s
      | none => s

/-- The title/summary/language triple put on the emitted `news_card`. -/
structure CardContent where
  title : Str
  summary : Str
  lang : Str
deriving DecidableEq

/-- Marker-found branch of the JIT refinement parser (websocket.rs lines 297-324):
extract the text between the markers, strip trailing notes, and fall back to the
original strings when either part is empty. -/
def jitAssemble (headline rawSummary articleLang userLang content : Str)
    (tIdx tLen sIdx sLen : Nat) : CardContent :=
  if strTrim (strSlice content (tIdx + tLen) sIdx) ≠ []
     ∧ strTrim (stripTrailingNote (strTrim (content.drop (sIdx + sLen)))) ≠ []
  then ⟨strTrim (strSlice content (tIdx + tLen) sIdx),
        strTrim (stripTrailingNote (strTrim (content.drop (sIdx + sLen)))), userLang⟩
  else ⟨headline, rawSummary, articleLang⟩

/-- The JIT refinement pass of `chat_websocket` (websocket.rs lines 274-342).
`headline`/`rawSummary` are the original personalized strings, `resp` the LLM
response content (`none` when the `generate` call failed). -/
def jit_refine (headline rawSummary articleLang userLang : Str)
    (resp : Option Str) : CardContent :=
  match resp with
  | none => ⟨headline, rawSummary, articleLang⟩
  | some respContent =>
    match find_marker (strTrim respContent) titleMarkers,
          find_marker (strTrim respContent) summaryMarkers with
    | some (tIdx, tLen), some (sIdx, sLen) =>
      if tIdx < sIdx then
        jitAssemble headline rawSummary articleLang userLang (strTrim respContent)
          tIdx tLen sIdx sLen
      else ⟨headline, rawSummary, articleLang⟩
    | _, _ =>
      if strTrim respContent ≠ [] ∧ 20 < (strTrim respContent).length
      then ⟨headline, strTrim respContent, userLang⟩
      else ⟨headline, rawSummary, articleLang⟩

/-- A `user_article_views` row. -/
structure ViewRow where
  userId : Int
  articleId : Int
  sessionId : Option Int
  rating : Option Int
deriving DecidableEq

/-- The per-session state touched by the rating handler: the view rows and the
interest vector of the user. -/
structure SessionState where
  views : List ViewRow
  userVec : Option (List ℚ)
deriving DecidableEq

/-- Handling of a client `rate` event (websocket.rs lines 430-444): the SQL
`UPDATE user_article_views SET rating = ? WHERE user_id = ? AND article_id = ?`.
Nothing else in the handler is executed before the `continue`. -/
def handle_rate_event (st : SessionState) (userId articleId rating : Int) : SessionState :=
  { st with
    views := st.views.map (fun v =>
      if v.userId = userId ∧ v.articleId = articleId
      then { v with rating := some rating } else v) }

end Websocket

namespace Personalize

/-- The slice of the user profile the personalizer reads. -/
structure UserProfile where
  language : Str
  complexityLevel : Str
deriving DecidableEq

/-- Result of `evaluate_article_relevance`. -/
structure RelevanceEval where
  score : ℚ
  reasons : List Str
deriving DecidableEq

/-- Result of `generate_personalized_summary`. -/
structure PersonalizedSummary where
  headline : Str
  bullets : List Str
  details : Option Str
  length : Str
deriving DecidableEq

/-- A `user_article_summaries` row as bound by the INSERT of
`personalize_for_users` (src/newscope/src/personalize_worker.rs lines 100-123). -/
structure UserArticleSummaryRow where
  userId : Int
  articleId : Int
  relevanceScore : ℚ
  isRelevant : Bool
  personalizedHeadline : Str
  personalizedBullets : List Str
  personalizedDetails : Option Str
  language : Str
  complexityLevel : Str
  summaryLength : Str
deriving DecidableEq

/-- One iteration of the per-user loop of `personalize_for_users`
(personalize_worker.rs lines 41-139). Each fallible step (profile fetch,
relevance evaluation, personalized-summary generation, the INSERT) is abstracted
as an optional result / success flag; every failure `continue`s without storing.
Returns the stored row, or `none` when nothing was stored for this user. -/
def personalize_for_user (userId articleId : Int)
    (profileResult : Option UserProfile)
    (relevanceResult : Option RelevanceEval)
    (personalizedResult : Option PersonalizedSummary)
    (insertOk : Bool) : Option UserArticleSummaryRow :=
  match profileResult with
  | none => none
  | some profile =>
    match relevanceResult with
    | none => none
    | some relevance =>
      if relevance.score < 0.3 then none
      else
        match personalizedResult with
        | none => none
        | some personalized =>
          if insertOk then
            some { userId := userId, articleId := articleId,
                   relevanceScore := relevance.score, isRelevant := true,
                   personalizedHeadline := personalized.headline,
                   personalizedBullets := personalized.bullets,
                   personalizedDetails := personalized.details,
                   language := profile.language,
                   complexityLevel := profile.complexityLevel,
                   summaryLength := personalized.length }
          else none

/-- Model of `update_user_vector_from_interaction` (personalize_worker.rs lines 186-228),
as a function from the stored user vector and the article vector to the user
vector after the call. `none` article vector: early return, nothing stored. -/
def update_user_vector_from_interaction (userVec : Option (List ℚ))
    (articleVec : Option (List ℚ)) (weight : ℚ) : Option (List ℚ) :=
  match articleVec with
  | none => userVec
  | some articleV =>
    match userVec with
    | some uv =>
      some (List.zipWith (fun u a => u * (1 - 0.1 * weight) + a * (0.1 * weight)) uv articleV)
    | none => some articleV

end Personalize

namespace Scheduler

/-- Outcome of the fetch-and-store path for one due feed inside `run_worker`:
success with the number of newly stored articles, or a fetch failure. -/
inductive FetchOutcome where
  | success (newArticles : Nat)
  | failure
deriving DecidableEq

/-- The interval and `next_poll_at` written back to the feed row. -/
structure FeedUpdate where
  interval : Int
  nextPollAt : Int
deriving DecidableEq

/-- Adaptive-scheduling update of one feed in `run_worker`
(src/newscope/src/main.rs lines 339-434). `prev` is `poll_interval_minutes`;
times are in minutes. On success the interval is halved (floor 15) when new
articles were stored, grown by half (cap 1440) otherwise, and kept when
`adaptive_scheduling` is off; on failure it is doubled (cap 1440) regardless of
the flag. `next_poll_at` is always `now` plus the written interval. -/
def run_worker_feed_update (prev : Int) (adaptive : Bool) (outcome : FetchOutcome)
    (now : Int) : FeedUpdate :=
  match outcome with
  | .success newCount =>
    let interval :=
      if adaptive then
        (if 0 < newCount then max (prev / 2) 15 else min (prev + prev / 2) 1440)
      else prev
    ⟨interval, now + interval⟩
  | .failure =>
    let newInterval := min (prev * 2) 1440
    ⟨newInterval, now + newInterval⟩

end Scheduler

namespace Ingestion

/-- What one attempt of `fetch_and_parse_feed` observes: a network error, or an
HTTP response with a status; for 2xx responses `parseOk` tells whether the body
read and feed parse succeeded. -/
inductive AttemptOutcome where
  | netErr
  | http (status : Nat) (parseOk : Bool)
deriving DecidableEq

/-- Result of `fetch_and_parse_feed`. -/
inductive FetchResult where
  | ok
  | bodyOrParseErr
  | terminal (status : Nat)
  | exhausted
deriving DecidableEq

/-- Retry classification of one attempt (src/newscope/src/ingestion.rs lines
28-50): network errors, HTTP 5xx and HTTP 429 are retried. -/
def retryable (o : AttemptOutcome) : Bool :=
  match o with
  | .netErr => true
  | .http s _ => decide ((500 ≤ s ∧ s ≤ 599) ∨ s = 429)

/-- What one attempt produces: `some r` ends the loop with result `r`,
`none` falls through to the next attempt (ingestion.rs lines 28-50).
`is_success` is 200-299 and `is_server_error` is 500-599 in reqwest. -/
def attemptResult (o : AttemptOutcome) : Option FetchResult :=
  match o with
  | .netErr => none
  | .http s parseOk =>
    if 200 ≤ s ∧ s ≤ 299 then some (if parseOk then .ok else .bodyOrParseErr)
    else if 500 ≤ s ∧ s ≤ 599 then none
    else if s = 429 then none
    else some (.terminal s)

/-- The retry loop of `fetch_and_parse_feed` over the outcomes of the successive
attempts; returns the result and the number of attempts made. An exhausted list
means all attempts were retried and the last stored error is returned. -/
def fetchRun : List AttemptOutcome → FetchResult × Nat
  | [] => (.exhausted, 0)
  | o :: rest =>
    match attemptResult o with
    | some r => (r, 1)
    | none =>
      match fetchRun rest with
      | (r, k) => (r, k + 1)

/-- Model of `fetch_and_parse_feed` (ingestion.rs lines 11-54) with `max_retries = 3`:
at most the first three attempt outcomes of the environment are consumed. -/
def fetch_and_parse_feed (env : Nat → AttemptOutcome) : FetchResult × Nat :=
  fetchRun [env 1, env 2, env 3]

/-- The sleeps performed before retries: before attempt `k ≥ 2` the loop sleeps
`2 ^ (k - 2)` seconds (ingestion.rs line 23), so a run of `a` attempts sleeps
`[2 ^ 0, …, 2 ^ (a - 2)]`. -/
def backoffSleeps (attempts : Nat) : List Nat :=
  (List.range (attempts - 1)).map (fun k => 2 ^ k)

end Ingestion

namespace PressReview

/-- A digest candidate of `generate_press_review` for one user: the feed, the
stored relevance score, the semantic similarity computed from the vectors
(defaulting to 0.5 upstream), the article `first_seen_at` (used only in the
per-feed recency ranking window), and the `created_at` of the summary row, which is
what the scorer reads (src/newscope/src/press_review.rs lines 204, 243, 266-276).
Timestamps are in seconds. -/
structure Candidate where
  feedId : Int
  relevanceScore : ℝ
  semanticSimilarity : ℝ
  firstSeenAt : Int
  createdAt : Int

/-- The blended score (press_review.rs line 284). -/
noncomputable def blendedScore (c : Candidate) : ℝ :=
  c.relevanceScore * 0.4 + c.semanticSimilarity * 0.6

/-- The exponential half-life freshness decay (press_review.rs lines 276-280):
`2 ^ (−age_secs / t_half)` with `age_secs = now − created_at`. -/
noncomputable def freshnessBoost (now : Int) (tHalf : ℝ) (c : Candidate) : ℝ :=
  (2 : ℝ) ^ (-(((now - c.createdAt : Int) : ℝ) / tHalf))

/-- The final candidate score (press_review.rs line 285). -/
noncomputable def finalScore (now : Int) (tHalf : ℝ) (c : Candidate) : ℝ :=
  blendedScore c * freshnessBoost now tHalf c

/-- A scored article as it enters the budgeting loop: its final score, id, and
the word count of its formatted digest text (press_review.rs lines 290, 324-332). -/
structure ScoredEntry where
  score : ℚ
  articleId : Int
  wordCount : Nat
deriving DecidableEq

/-- The reading budget (press_review.rs lines 297-298):
`((duration/60)/2 · reading_speed) as usize`, clamped to `[100, 3000]`. -/
def target_words (durationSeconds : Int) (readingSpeed : ℚ) : Nat :=
  min (max (⌊(durationSeconds : ℚ) / 60 / 2 * readingSpeed⌋.toNat) 100) 3000

/-- The budgeting loop (press_review.rs lines 307-340): walk the sorted
candidates, stop once the target is reached with at least three articles, and
also stop before an article that would overshoot the target by more than 200
words when at least three articles were already emitted. -/
def selectArticles (targetWords : Nat) : Nat → Nat → List ScoredEntry → List ScoredEntry
  | _, _, [] => []
  | currentWords, articleCount, e :: rest =>
    if targetWords ≤ currentWords ∧ 3 ≤ articleCount then []
    else if targetWords + 200 < currentWords + e.wordCount ∧ 3 ≤ articleCount then []
    else e :: selectArticles targetWords (currentWords + e.wordCount) (articleCount + 1) rest

/-- The descending sort by final score (press_review.rs line 294); the Rust
`sort_by` is a stable comparison sort. -/
def sortByScoreDesc (l : List ScoredEntry) : List ScoredEntry :=
  l.mergeSort (fun a b => decide (b.score ≤ a.score))

/-- The selection phase of `generate_press_review` (press_review.rs lines
293-340): sort by final score descending, then run the budgeting loop. -/
def press_review_selection (durationSeconds : Int) (readingSpeed : ℚ)
    (entries : List ScoredEntry) : List ScoredEntry :=
  selectArticles (target_words durationSeconds readingSpeed) 0 0 (sortByScoreDesc entries)

/-- Total word count of the emitted articles. -/
def totalWords (l : List ScoredEntry) : Nat := (l.map (fun e => e.wordCount)).sum

end PressReview

/-! Theorems checking the specification claims. -/

/-- C10: `extract_json_from_text` is claimed total for every input, including
strings whose only closing brace precedes the first opening brace. On the input
"ab}cd{ef" the first brace is at index 5 and the last closing brace at index 2,
so the Rust slice `text[5..=2]` panics: the function is not total and the claim
fails on exactly the input it names. -/
theorem extract_json_from_text_panics_on_brace_before_open :
    Llm.extract_json_from_text "ab\x7dcd\x7bef".toList = Llm.ExtractOutcome.panicked := by
  decide

/-- C5: adaptive scheduler interval transitions in `run_worker`: success with at
least one new article sets the interval to `max (prev / 2) 15`; success with
zero new articles sets it to `min (3 * prev / 2) 1440` (the integer form of
`min (prev · 1.5) 1440`, since intervals are integer minutes); failure sets it
to `min (prev * 2) 1440`; `next_poll_at` is `now` plus the new interval in every
outcome; a non-adaptive feed keeps its interval on success. -/
theorem run_worker_feed_update_spec (prev now : Int) (n : Nat) (adaptive : Bool) :
    (Scheduler.run_worker_feed_update prev true (.success (n + 1)) now).interval
      = max (prev / 2) 15
    ∧ (Scheduler.run_worker_feed_update prev true (.success 0) now).interval
      = min ((3 * prev) / 2) 1440
    ∧ (Scheduler.run_worker_feed_update prev adaptive .failure now).interval
      = min (prev * 2) 1440
    ∧ (Scheduler.run_worker_feed_update prev false (.success n) now).interval = prev
    ∧ ∀ outcome, (Scheduler.run_worker_feed_update prev adaptive outcome now).nextPollAt
        = now + (Scheduler.run_worker_feed_update prev adaptive outcome now).interval := by
  refine ⟨?_, ?_, rfl, rfl, ?_⟩
  · simp [Scheduler.run_worker_feed_update]
  · have h : prev + prev / 2 = (3 * prev) / 2 := by omega
    simp [Scheduler.run_worker_feed_update, h]
  · intro outcome
    cases outcome <;> rfl

/-- C1 counterexample: two candidates identical except for the article
`first_seen_at` receive exactly the same final score, because the age used by
the scorer is computed from the summary row `created_at`, never from `first_seen_at`
(press_review.rs line 243); the newer candidate does not score strictly higher. -/
theorem finalScore_ignores_firstSeenAt :
    ¬ (PressReview.finalScore 1000 86400 ⟨1, 0.5, 0.5, 200, 0⟩
       > PressReview.finalScore 1000 86400 ⟨1, 0.5, 0.5, 100, 0⟩) := by
  have h : PressReview.finalScore 1000 86400 ⟨1, 0.5, 0.5, 200, 0⟩
      = PressReview.finalScore 1000 86400 ⟨1, 0.5, 0.5, 100, 0⟩ := rfl
  rw [gt_iff_lt, h]
  exact lt_irrefl _

/-- C1 (amended): decay monotonicity holds in the summary row `created_at`:
for two candidates identical except `created_at`, with relevance at least 0.3
and non-negative semantic similarity (as every stored candidate satisfies) and a
positive half-life, the one with the more recent `created_at` receives a
strictly higher final score. -/
theorem finalScore_strict_mono_in_createdAt (now : Int) (tHalf : ℝ)
    (c₁ c₂ : PressReview.Candidate)
    (hrel : c₁.relevanceScore = c₂.relevanceScore)
    (hsem : c₁.semanticSimilarity = c₂.semanticSimilarity)
    (hfeed : c₁.feedId = c₂.feedId)
    (hrel3 : 0.3 ≤ c₁.relevanceScore)
    (hsem0 : 0 ≤ c₁.semanticSimilarity)
    (ht : 0 < tHalf)
    (hnewer : c₂.createdAt < c₁.createdAt) :
    PressReview.finalScore now tHalf c₂ < PressReview.finalScore now tHalf c₁ := by
  have hb : PressReview.blendedScore c₂ = PressReview.blendedScore c₁ := by
    unfold PressReview.blendedScore
    rw [hrel, hsem]
  have hbpos : 0 < PressReview.blendedScore c₁ := by
    unfold PressReview.blendedScore
    nlinarith [hrel3, hsem0]
  have hfr : PressReview.freshnessBoost now tHalf c₂
      < PressReview.freshnessBoost now tHalf c₁ := by
    unfold PressReview.freshnessBoost
    apply Real.rpow_lt_rpow_of_exponent_lt (by norm_num)
    have hage : ((now - c₁.createdAt : Int) : ℝ) < ((now - c₂.createdAt : Int) : ℝ) := by
      exact_mod_cast sub_lt_sub_left hnewer now
    have hdiv := (div_lt_div_iff_of_pos_right ht).mpr hage
    linarith
  calc PressReview.finalScore now tHalf c₂
      = PressReview.blendedScore c₁ * PressReview.freshnessBoost now tHalf c₂ := by
        unfold PressReview.finalScore
        rw [hb]
    _ < PressReview.blendedScore c₁ * PressReview.freshnessBoost now tHalf c₁ :=
        mul_lt_mul_of_pos_left hfr hbpos
    _ = PressReview.finalScore now tHalf c₁ := rfl

/-- Witness for the amended C1 theorem at concrete candidates. -/
theorem finalScore_strict_mono_in_createdAt_witness :
    PressReview.finalScore 1000 86400 ⟨1, 0.5, 0.5, 0, 0⟩
      < PressReview.finalScore 1000 86400 ⟨1, 0.5, 0.5, 0, 500⟩ :=
  finalScore_strict_mono_in_createdAt 1000 86400 ⟨1, 0.5, 0.5, 0, 500⟩ ⟨1, 0.5, 0.5, 0, 0⟩
    rfl rfl rfl ((by norm_num : (0.3 : ℝ) ≤ 0.5)) ((by norm_num : (0 : ℝ) ≤ 0.5))
    ((by norm_num : (0 : ℝ) < 86400)) ((by norm_num : (0 : Int) < 500))

/-- An attempt falls through to a retry exactly when it is of the retryable
class: network error, HTTP 5xx, or HTTP 429. -/
theorem attemptResult_eq_none_iff (o : Ingestion.AttemptOutcome) :
    Ingestion.attemptResult o = none ↔ Ingestion.retryable o = true := by
  cases o with
  | netErr => simp [Ingestion.attemptResult, Ingestion.retryable]
  | http s parseOk =>
    simp only [Ingestion.attemptResult, Ingestion.retryable, decide_eq_true_eq]
    split_ifs with h₁ h₂ h₃ <;> simp <;> omega

/-- A 4xx status other than 429 is terminal for a single attempt. -/
theorem attemptResult_of_4xx (s : Nat) (parseOk : Bool)
    (h₁ : 400 ≤ s) (h₂ : s ≤ 499) (h₃ : s ≠ 429) :
    Ingestion.attemptResult (.http s parseOk) = some (.terminal s) := by
  simp only [Ingestion.attemptResult]
  rw [if_neg (by omega), if_neg (by omega), if_neg h₃]

/-- The number of attempts never exceeds the number of available outcomes. -/
theorem fetchRun_attempts_le (l : List Ingestion.AttemptOutcome) :
    (Ingestion.fetchRun l).2 ≤ l.length := by
  induction l with
  | nil => simp [Ingestion.fetchRun]
  | cons o rest ih =>
    simp only [Ingestion.fetchRun]
    cases h : Ingestion.attemptResult o with
    | some r => simp
    | none => simpa using ih

/-- The backoff sleeps of a run of at most three attempts follow the exponential
schedule and stay within the 1s, 2s, 4s sequence. -/
theorem backoffSleeps_le_three (a : Nat) (h : a ≤ 3) :
    Ingestion.backoffSleeps a <+: [1, 2, 4] := by
  interval_cases a <;> decide

/-- C7: `fetch_and_parse_feed` makes at most 3 attempts; the sleeps between
attempts follow the exponential 1s, 2s, 4s schedule (of which only 1s and 2s are
reachable); every attempt that is followed by another one was of a retryable
class (network error, 5xx, or 429); and a 4xx response other than 429 at any
attempt ends the run immediately with a terminal error. -/
theorem fetch_and_parse_feed_spec (env : Nat → Ingestion.AttemptOutcome) :
    (Ingestion.fetch_and_parse_feed env).2 ≤ 3
    ∧ Ingestion.backoffSleeps ((Ingestion.fetch_and_parse_feed env).2) <+: [1, 2, 4]
    ∧ (1 < (Ingestion.fetch_and_parse_feed env).2 → Ingestion.retryable (env 1) = true)
    ∧ (2 < (Ingestion.fetch_and_parse_feed env).2 → Ingestion.retryable (env 2) = true)
    ∧ (∀ s parseOk, 400 ≤ s → s ≤ 499 → s ≠ 429 → env 1 = .http s parseOk →
        Ingestion.fetch_and_parse_feed env = (.terminal s, 1))
    ∧ (∀ s parseOk, Ingestion.retryable (env 1) = true →
        400 ≤ s → s ≤ 499 → s ≠ 429 → env 2 = .http s parseOk →
        Ingestion.fetch_and_parse_feed env = (.terminal s, 2))
    ∧ (∀ s parseOk, Ingestion.retryable (env 1) = true →
        Ingestion.retryable (env 2) = true →
        400 ≤ s → s ≤ 499 → s ≠ 429 → env 3 = .http s parseOk →
        Ingestion.fetch_and_parse_feed env = (.terminal s, 3)) := by
  have hle : (Ingestion.fetch_and_parse_feed env).2 ≤ 3 :=
    fetchRun_attempts_le [env 1, env 2, env 3]
  refine ⟨hle, backoffSleeps_le_three _ hle, ?_, ?_, ?_, ?_, ?_⟩
  · intro hgt
    cases h₁ : Ingestion.attemptResult (env 1) with
    | some r =>
      simp [Ingestion.fetch_and_parse_feed, Ingestion.fetchRun, h₁] at hgt
    | none => exact (attemptResult_eq_none_iff (env 1)).mp h₁
  · intro hgt
    cases h₂ : Ingestion.attemptResult (env 2) with
    | some r =>
      cases h₁ : Ingestion.attemptResult (env 1) with
      | some r₁ =>
        simp [Ingestion.fetch_and_parse_feed, Ingestion.fetchRun, h₁] at hgt
      | none =>
        simp [Ingestion.fetch_and_parse_feed, Ingestion.fetchRun, h₁, h₂] at hgt
    | none => exact (attemptResult_eq_none_iff (env 2)).mp h₂
  · intro s parseOk h4a h4b h429 henv
    have h₁ : Ingestion.attemptResult (env 1) = some (.terminal s) := by
      rw [henv]
      exact attemptResult_of_4xx s parseOk h4a h4b h429
    simp [Ingestion.fetch_and_parse_feed, Ingestion.fetchRun, h₁]
  · intro s parseOk hr1 h4a h4b h429 henv
    have h₁ : Ingestion.attemptResult (env 1) = none :=
      (attemptResult_eq_none_iff (env 1)).mpr hr1
    have h₂ : Ingestion.attemptResult (env 2) = some (.terminal s) := by
      rw [henv]
      exact attemptResult_of_4xx s parseOk h4a h4b h429
    simp [Ingestion.fetch_and_parse_feed, Ingestion.fetchRun, h₁, h₂]
  · intro s parseOk hr1 hr2 h4a h4b h429 henv
    have h₁ : Ingestion.attemptResult (env 1) = none :=
      (attemptResult_eq_none_iff (env 1)).mpr hr1
    have h₂ : Ingestion.attemptResult (env 2) = none :=
      (attemptResult_eq_none_iff (env 2)).mpr hr2
    have h₃ : Ingestion.attemptResult (env 3) = some (.terminal s) := by
      rw [henv]
      exact attemptResult_of_4xx s parseOk h4a h4b h429
    simp [Ingestion.fetch_and_parse_feed, Ingestion.fetchRun, h₁, h₂, h₃]

/-- Witness for C7: a 503 followed by a 404 gives the terminal 404 after exactly
two attempts. -/
theorem fetch_and_parse_feed_spec_witness :
    Ingestion.fetch_and_parse_feed
        (fun k => if k = 1 then .http 503 true else .http 404 true)
      = (.terminal 404, 2) :=
  (fetch_and_parse_feed_spec
      (fun k => if k = 1 then .http 503 true else .http 404 true)).2.2.2.2.2.1
    404 true (by decide) (by decide) (by decide) (by decide) (by decide)

/-- Truncation never exceeds the limit (for limits of at least three characters,
the length of the appended ellipsis). -/
theorem truncate_length_le (s : Str) (n : Nat) (h3 : 3 ≤ n) :
    (Summarizer.truncate s n).length ≤ n := by
  unfold Summarizer.truncate
  split
  · assumption
  · rename_i hlen
    simp only [List.length_append, List.length_take]
    have : ("...".toList).length = 3 := by decide
    rw [this]
    omega

/-- C8: whenever the LLM summarize call fails, `summarize_article` returns the
extractive summary: the headline is the first sentence truncated with an
ellipsis at 100 characters, the bullets are the next up-to-5 sentences each
truncated at 200 characters, and the details are the first 1000 characters of
the text; the failure is never propagated (the function is total in the
failure case). -/
theorem summarize_article_fallback (article_text s₀ : Str) (rest : List Str)
    (hsent : Summarizer.sentencesOf article_text = s₀ :: rest) :
    (Summarizer.summarize_article none article_text).headline = Summarizer.truncate s₀ 100
    ∧ (Summarizer.summarize_article none article_text).bullets
      = (rest.take 5).map (fun s => Summarizer.truncate s 200)
    ∧ (Summarizer.summarize_article none article_text).details
      = some (article_text.take 1000)
    ∧ (Summarizer.summarize_article none article_text).headline.length ≤ 100
    ∧ (∀ b ∈ (Summarizer.summarize_article none article_text).bullets, b.length ≤ 200)
    ∧ (Summarizer.summarize_article none article_text).bullets.length ≤ 5
    ∧ (((Summarizer.summarize_article none article_text).details.getD []).length ≤ 1000) := by
  have hmain : Summarizer.summarize_article none article_text
      = Summarizer.extractive_summary article_text := rfl
  rw [hmain]
  unfold Summarizer.extractive_summary
  rw [hsent]
  refine ⟨rfl, rfl, rfl, ?_, ?_, ?_, ?_⟩
  · exact truncate_length_le s₀ 100 (by omega)
  · intro b hb
    simp only [List.mem_map] at hb
    obtain ⟨s, _, rfl⟩ := hb
    exact truncate_length_le s 200 (by omega)
  · simp only [List.length_map, List.length_take]
    omega
  · simp only [Option.getD_some, List.length_take]
    omega

/-- Witness for C8 at a concrete three-sentence text. -/
theorem summarize_article_fallback_witness :
    Summarizer.sentencesOf "Alpha beta. Gamma delta. Eps.".toList
      = ["Alpha beta".toList, "Gamma delta".toList, "Eps".toList]
    ∧ (Summarizer.summarize_article none "Alpha beta. Gamma delta. Eps.".toList).headline
      = Summarizer.truncate "Alpha beta".toList 100 :=
  ⟨by decide,
   (summarize_article_fallback "Alpha beta. Gamma delta. Eps.".toList "Alpha beta".toList
      ["Gamma delta".toList, "Eps".toList] (by decide)).1⟩

/-- C6: `personalize_for_users` stores a row only when the evaluated relevance
score is at least 0.3, and every stored row carries the language and
complexity level of the user (and the stored score itself). -/
theorem personalize_for_user_stores_only_relevant (userId articleId : Int)
    (profileResult : Option Personalize.UserProfile)
    (relevanceResult : Option Personalize.RelevanceEval)
    (personalizedResult : Option Personalize.PersonalizedSummary)
    (insertOk : Bool) (row : Personalize.UserArticleSummaryRow)
    (h : Personalize.personalize_for_user userId articleId profileResult relevanceResult
          personalizedResult insertOk = some row) :
    (∃ relevance, relevanceResult = some relevance ∧ (0.3 : ℚ) ≤ relevance.score
      ∧ row.relevanceScore = relevance.score)
    ∧ (∃ profile, profileResult = some profile ∧ row.language = profile.language
      ∧ row.complexityLevel = profile.complexityLevel) := by
  cases profileResult with
  | none => simp [Personalize.personalize_for_user] at h
  | some profile =>
    cases relevanceResult with
    | none => simp [Personalize.personalize_for_user] at h
    | some relevance =>
      by_cases hscore : relevance.score < 0.3
      · simp [Personalize.personalize_for_user, hscore] at h
      · cases personalizedResult with
        | none => simp [Personalize.personalize_for_user, hscore] at h
        | some personalized =>
          cases insertOk with
          | false => simp [Personalize.personalize_for_user, hscore] at h
          | true =>
            simp only [Personalize.personalize_for_user, if_neg hscore, if_true,
              Option.some.injEq] at h
            subst h
            exact ⟨⟨relevance, rfl, not_lt.mp hscore, rfl⟩, ⟨profile, rfl, rfl, rfl⟩⟩

/-- Witness for C6 at a concrete stored row with score one half. -/
theorem personalize_for_user_stores_only_relevant_witness :
    (∃ relevance, (some (⟨1/2, []⟩ : Personalize.RelevanceEval)) = some relevance
      ∧ (0.3 : ℚ) ≤ relevance.score
      ∧ (⟨1, 2, 1/2, true, "h".toList, [], none, "fr".toList, "simple".toList,
          "short".toList⟩ : Personalize.UserArticleSummaryRow).relevanceScore
        = relevance.score)
    ∧ (∃ profile, (some (⟨"fr".toList, "simple".toList⟩ : Personalize.UserProfile))
        = some profile
      ∧ (⟨1, 2, 1/2, true, "h".toList, [], none, "fr".toList, "simple".toList,
          "short".toList⟩ : Personalize.UserArticleSummaryRow).language = profile.language
      ∧ (⟨1, 2, 1/2, true, "h".toList, [], none, "fr".toList, "simple".toList,
          "short".toList⟩ : Personalize.UserArticleSummaryRow).complexityLevel
        = profile.complexityLevel) :=
  personalize_for_user_stores_only_relevant 1 2
    (some ⟨"fr".toList, "simple".toList⟩) (some ⟨1/2, []⟩)
    (some ⟨"h".toList, [], none, "short".toList⟩) true
    ⟨1, 2, 1/2, true, "h".toList, [], none, "fr".toList, "simple".toList, "short".toList⟩
    (by norm_num [Personalize.personalize_for_user])

/-- C9: for an interaction of weight `w`, with an existing user vector the
stored vector is componentwise `(1 − 0.1·w)·U + (0.1·w)·A`; with no user vector
the article vector is stored; with no article vector the user vector is left
unchanged. -/
theorem update_user_vector_from_interaction_spec (uvOpt : Option (List ℚ))
    (u a : List ℚ) (w : ℚ) (i : Nat) (hi : i < u.length) (hlen : u.length = a.length) :
    (∃ v, Personalize.update_user_vector_from_interaction (some u) (some a) w = some v
      ∧ v.length = u.length
      ∧ v.getD i 0 = (1 - 0.1 * w) * u.getD i 0 + (0.1 * w) * a.getD i 0)
    ∧ Personalize.update_user_vector_from_interaction none (some a) w = some a
    ∧ Personalize.update_user_vector_from_interaction uvOpt none w = uvOpt := by
  refine ⟨⟨List.zipWith (fun x y => x * (1 - 0.1 * w) + y * (0.1 * w)) u a, rfl, ?_, ?_⟩,
    rfl, ?_⟩
  · simp only [List.length_zipWith]
    omega
  · have hzi : i < (List.zipWith (fun x y => x * (1 - 0.1 * w) + y * (0.1 * w)) u a).length := by
      simp only [List.length_zipWith]
      omega
    have hai : i < a.length := by omega
    rw [List.getD_eq_getElem _ _ hzi, List.getElem_zipWith,
      List.getD_eq_getElem _ _ hi, List.getD_eq_getElem _ _ hai]
    ring
  · cases uvOpt <;> rfl

/-- Witness for C9 at concrete two-component vectors with weight 2. -/
theorem update_user_vector_from_interaction_spec_witness :
    (∃ v, Personalize.update_user_vector_from_interaction (some [1, 0]) (some [0, 1]) 2
        = some v
      ∧ v.length = ([1, 0] : List ℚ).length
      ∧ v.getD 0 0 = (1 - 0.1 * 2) * ([1, 0] : List ℚ).getD 0 0
          + (0.1 * 2) * ([0, 1] : List ℚ).getD 0 0)
    ∧ Personalize.update_user_vector_from_interaction none (some [0, 1]) 2 = some [0, 1]
    ∧ Personalize.update_user_vector_from_interaction (some [1, 0]) none 2 = some [1, 0] :=
  update_user_vector_from_interaction_spec (some [1, 0]) [1, 0] [0, 1] 2 0
    (by simp) (by simp)

/-- C4 counterexample: a `rate` event leaves the interest vector of the user exactly
as it was; it is never the weight-2 EMA update that the claim asserts. Here the
stored vector is `[1]` and the article vector `[0]`, for which the claimed
update would store `[0.8]`. -/
theorem handle_rate_event_no_vector_update :
    (Websocket.handle_rate_event ⟨[⟨1, 7, some 9, none⟩], some [1]⟩ 1 7 5).userVec
      ≠ Personalize.update_user_vector_from_interaction (some [1]) (some [0]) 2 := by
  have h₁ : (Websocket.handle_rate_event ⟨[⟨1, 7, some 9, none⟩], some [1]⟩ 1 7 5).userVec
      = some [1] := rfl
  have h₂ : Personalize.update_user_vector_from_interaction
      (some [(1 : ℚ)]) (some [0]) 2 = some [0.8] := by
    simp only [Personalize.update_user_vector_from_interaction, List.zipWith_cons_cons,
      List.zipWith_nil_right]
    norm_num
  rw [h₁, h₂]
  simp only [ne_eq, Option.some.injEq, List.cons.injEq, and_true]
  norm_num

/-- C4 (amended): a `rate` event updates the rating of every view row matching
`(user_id, article_id)`, keeps every other view row, and leaves the
user interest vector unchanged; no interest-vector update is performed. -/
theorem handle_rate_event_spec (st : Websocket.SessionState) (uid aid r : Int) :
    (Websocket.handle_rate_event st uid aid r).userVec = st.userVec
    ∧ ∀ v ∈ st.views,
        (v.userId = uid ∧ v.articleId = aid →
          { v with rating := some r } ∈ (Websocket.handle_rate_event st uid aid r).views)
        ∧ (¬(v.userId = uid ∧ v.articleId = aid) →
          v ∈ (Websocket.handle_rate_event st uid aid r).views) := by
  refine ⟨rfl, ?_⟩
  intro v hv
  constructor
  · intro hmatch
    refine List.mem_map.mpr ⟨v, hv, ?_⟩
    simp [hmatch]
  · intro hmatch
    refine List.mem_map.mpr ⟨v, hv, ?_⟩
    simp [hmatch]

/-- Witness for the amended C4 theorem at a concrete state with one matching and
one non-matching view row. -/
theorem handle_rate_event_spec_witness :
    (Websocket.handle_rate_event
        ⟨[⟨1, 7, none, none⟩, ⟨2, 7, none, none⟩], some [1]⟩ 1 7 4).userVec = some [1]
    ∧ (⟨1, 7, none, some 4⟩ : Websocket.ViewRow)
      ∈ (Websocket.handle_rate_event
          ⟨[⟨1, 7, none, none⟩, ⟨2, 7, none, none⟩], some [1]⟩ 1 7 4).views
    ∧ (⟨2, 7, none, none⟩ : Websocket.ViewRow)
      ∈ (Websocket.handle_rate_event
          ⟨[⟨1, 7, none, none⟩, ⟨2, 7, none, none⟩], some [1]⟩ 1 7 4).views :=
  ⟨(handle_rate_event_spec ⟨[⟨1, 7, none, none⟩, ⟨2, 7, none, none⟩], some [1]⟩ 1 7 4).1,
   ((handle_rate_event_spec ⟨[⟨1, 7, none, none⟩, ⟨2, 7, none, none⟩], some [1]⟩ 1 7 4).2
      ⟨1, 7, none, none⟩ (by simp)).1 (by exact ⟨rfl, rfl⟩),
   ((handle_rate_event_spec ⟨[⟨1, 7, none, none⟩, ⟨2, 7, none, none⟩], some [1]⟩ 1 7 4).2
      ⟨2, 7, none, none⟩ (by simp)).2 (by decide)⟩

/-- C2 counterexample: a refinement response without any TITLE/SUMMARY marker
but longer than 20 characters is emitted as the card summary — the raw
refinement output replaces the original personalized summary. -/
theorem jit_refine_counterexample :
    Websocket.find_marker (strTrim "a plain response with no markers in it at all".toList)
        Websocket.titleMarkers = none
    ∧ Websocket.find_marker (strTrim "a plain response with no markers in it at all".toList)
        Websocket.summaryMarkers = none
    ∧ (Websocket.jit_refine "Original headline".toList "Original summary".toList
        "en".toList "fr".toList
        (some "a plain response with no markers in it at all".toList)).summary
      ≠ "Original summary".toList := by
  decide

/-- C2 (amended): when the title marker or the summary marker is missing from
the trimmed refinement response, the emitted card always keeps the original
personalized headline; it keeps the original personalized summary only when the
trimmed response is empty or at most 20 characters long — otherwise the trimmed
raw response becomes the summary. -/
theorem jit_refine_markers_missing (headline rawSummary articleLang userLang
    respContent : Str)
    (hmiss : Websocket.find_marker (strTrim respContent) Websocket.titleMarkers = none
      ∨ Websocket.find_marker (strTrim respContent) Websocket.summaryMarkers = none) :
    (Websocket.jit_refine headline rawSummary articleLang userLang
        (some respContent)).title = headline
    ∧ (Websocket.jit_refine headline rawSummary articleLang userLang
        (some respContent)).summary
      = (if strTrim respContent ≠ [] ∧ 20 < (strTrim respContent).length
         then strTrim respContent else rawSummary) := by
  cases h₁ : Websocket.find_marker (strTrim respContent) Websocket.titleMarkers with
  | none =>
    cases h₂ : Websocket.find_marker (strTrim respContent) Websocket.summaryMarkers with
    | none =>
      simp only [Websocket.jit_refine, h₁, h₂]
      constructor
      · split <;> rfl
      · split <;> rfl
    | some p₂ =>
      simp only [Websocket.jit_refine, h₁, h₂]
      constructor
      · split <;> rfl
      · split <;> rfl
  | some p₁ =>
    cases h₂ : Websocket.find_marker (strTrim respContent) Websocket.summaryMarkers with
    | none =>
      simp only [Websocket.jit_refine, h₁, h₂]
      constructor
      · split <;> rfl
      · split <;> rfl
    | some p₂ =>
      rcases hmiss with hmiss | hmiss
      · rw [h₁] at hmiss
        exact absurd hmiss (by simp)
      · rw [h₂] at hmiss
        exact absurd hmiss (by simp)

/-- Witness for the amended C2 theorem: a short marker-less response keeps both
original strings. -/
theorem jit_refine_markers_missing_witness :
    (Websocket.jit_refine "H".toList "S".toList "en".toList "fr".toList
        (some "ok".toList)).title = "H".toList
    ∧ (Websocket.jit_refine "H".toList "S".toList "en".toList "fr".toList
        (some "ok".toList)).summary
      = (if strTrim "ok".toList ≠ [] ∧ 20 < (strTrim "ok".toList).length
         then strTrim "ok".toList else "S".toList) :=
  jit_refine_markers_missing "H".toList "S".toList "en".toList "fr".toList "ok".toList
    (Or.inl (by decide))

/-- The budgeting loop only ever emits a subsequence of its input, in order. -/
theorem selectArticles_sublist (t cur cnt : Nat) (l : List PressReview.ScoredEntry) :
    (PressReview.selectArticles t cur cnt l).Sublist l := by
  induction l generalizing cur cnt with
  | nil => simp [PressReview.selectArticles]
  | cons e rest ih =>
    simp only [PressReview.selectArticles]
    split
    · exact List.nil_sublist _
    · split
      · exact List.nil_sublist _
      · exact List.Sublist.cons₂ e (ih (cur + e.wordCount) (cnt + 1))

/-- Budget invariant of the selection loop: starting from a word count within
budget or fewer than three emitted articles, the loop ends within the
200-word overshoot of the target, or with at most three articles in total. -/
theorem selectArticles_budget (t cur cnt : Nat) (l : List PressReview.ScoredEntry)
    (hinv : cur ≤ t + 200 ∨ cnt ≤ 3) :
    cur + PressReview.totalWords (PressReview.selectArticles t cur cnt l) ≤ t + 200
    ∨ cnt + (PressReview.selectArticles t cur cnt l).length ≤ 3 := by
  induction l generalizing cur cnt with
  | nil =>
    simp only [PressReview.selectArticles, PressReview.totalWords, List.map_nil,
      List.sum_nil, List.length_nil]
    omega
  | cons e rest ih =>
    simp only [PressReview.selectArticles]
    split
    · simp only [PressReview.totalWords, List.map_nil, List.sum_nil, List.length_nil]
      omega
    · split
      · simp only [PressReview.totalWords, List.map_nil, List.sum_nil, List.length_nil]
        omega
      · rename_i hb₁ hb₂
        have hinv' : cur + e.wordCount ≤ t + 200 ∨ cnt + 1 ≤ 3 := by
          rcases not_and_or.mp hb₂ with h | h
          · left
            omega
          · right
            omega
        have hrec := ih (cur + e.wordCount) (cnt + 1) hinv'
        simp only [PressReview.totalWords, List.map_cons, List.sum_cons,
          List.length_cons] at hrec ⊢
        omega

/-- C3 (amended): for every duration, reading speed and candidate list, the
selection emits the candidates in descending final-score order, and either the
total word count stays within `target_words + 200` or at most three articles
are emitted. -/
theorem press_review_selection_spec (d : Int) (speed : ℚ)
    (entries : List PressReview.ScoredEntry) :
    List.Pairwise (fun a b => b.score ≤ a.score)
      (PressReview.press_review_selection d speed entries)
    ∧ (PressReview.totalWords (PressReview.press_review_selection d speed entries)
        ≤ PressReview.target_words d speed + 200
      ∨ (PressReview.press_review_selection d speed entries).length ≤ 3) := by
  constructor
  · have hsorted : List.Pairwise
        (fun a b : PressReview.ScoredEntry => decide (b.score ≤ a.score) = true)
        (PressReview.sortByScoreDesc entries) := by
      apply List.sorted_mergeSort
      · intro a b c hab hbc
        simp only [decide_eq_true_eq] at hab hbc ⊢
        exact le_trans hbc hab
      · intro a b
        simpa using le_total b.score a.score
    have hsub := selectArticles_sublist (PressReview.target_words d speed) 0 0
      (PressReview.sortByScoreDesc entries)
    exact (List.Pairwise.sublist hsub hsorted).imp (fun hab => by simpa using hab)
  · have h := selectArticles_budget (PressReview.target_words d speed) 0 0
      (PressReview.sortByScoreDesc entries) (Or.inl (by omega))
    simpa [PressReview.press_review_selection] using h

/-- C3 counterexample: a 20-minute session at 250 wpm has a target of 2500
words; with only two candidates of 5000 words each both are emitted, so the
total (10000) exceeds `target_words + 200` while only two articles — not
exactly three — are emitted. -/
theorem press_review_selection_counterexample :
    ¬ (PressReview.totalWords
        (PressReview.press_review_selection 1200 250 [⟨1, 1, 5000⟩, ⟨1/2, 2, 5000⟩])
        ≤ PressReview.target_words 1200 250 + 200
      ∨ (PressReview.press_review_selection 1200 250
          [⟨1, 1, 5000⟩, ⟨1/2, 2, 5000⟩]).length = 3) := by
  have htarget : PressReview.target_words 1200 250 = 2500 := by
    unfold PressReview.target_words
    norm_num
    rfl
  have hsort : PressReview.sortByScoreDesc [⟨1, 1, 5000⟩, ⟨1/2, 2, 5000⟩]
      = [⟨1, 1, 5000⟩, ⟨1/2, 2, 5000⟩] := by
    apply List.mergeSort_of_sorted
    constructor
    · intro b hb
      simp only [List.mem_singleton] at hb
      subst hb
      simp only [decide_eq_true_eq]
      norm_num
    · constructor
      · intro b hb
        simp at hb
      · exact List.Pairwise.nil
  unfold PressReview.press_review_selection
  rw [htarget, hsort]
  decide

end Newscope
